import Mathlib

/-!
Verification of the CloudProfile web application (`app.py`): a shallow
embedding of its pure helpers (word counting, filename validation,
password verification) and of its route handlers (register, login,
profile, download) as state-passing functions, together with theorems
about the behaviour claimed in the design document.

External collaborators (the werkzeug password-hash primitives and the
filename sanitizer) are treated as opaque function parameters, as the
design document places their internals out of scope.
-/

namespace CloudProfile

/-- The whitespace characters recognised by Python's `str.split()` /
`str.strip()` (restricted to the ASCII whitespace set). -/
def isPySpace (c : Char) : Bool :=
  c = ' ' || c = '\t' || c = '\n' || c = '\r' || c = '\x0b' || c = '\x0c'

/-- Python `str.strip()`: drop leading and trailing whitespace. -/
def pyStrip (s : String) : String :=
  String.mk (((s.toList.dropWhile isPySpace).reverse.dropWhile isPySpace).reverse)

/-- Worker for Python `str.split()` with no separator argument: `acc` holds
the (reversed) characters of the token currently being accumulated. -/
def pySplitAux : List Char → List Char → List String
  | [], [] => []
  | [], a :: as => [String.mk (a :: as).reverse]
  | c :: cs, acc =>
    if isPySpace c then
      match acc with
      | [] => pySplitAux cs []
      | a :: as => String.mk ((a :: as).reverse) :: pySplitAux cs []
    else
      pySplitAux cs (c :: acc)

/-- Python `text.split()`: the maximal non-whitespace runs of `text`. -/
def pySplit (s : String) : List String :=
  pySplitAux s.toList []

/-- `count_words` from `app.py`:
`len([word for word in text.split() if word.strip()])`.
A Python string is truthy exactly when it is non-empty. -/
def count_words (text : String) : Nat :=
  ((pySplit text).filter (fun word => pyStrip word ≠ "")).length

/-- Modelled from the spec: split a character list at every whitespace
character (adjacent separators produce empty fields), the classic
split-on-predicate. Used only to state the spec's notion of
"splitting on maximal runs of whitespace" for comparison with
`count_words`. -/
def specSplit : List Char → List (List Char)
  | [] => [[]]
  | c :: cs =>
    if isPySpace c then
      [] :: specSplit cs
    else
      match specSplit cs with
      | [] => [[c]]
      | t :: ts => (c :: t) :: ts

/-- Modelled from the spec: "the number of non-empty tokens obtained by
splitting s on maximal runs of whitespace". -/
def specTokenCount (s : String) : Nat :=
  ((specSplit s.toList).filter (fun t => t ≠ [])).length

/-- Reference word-counting automaton: `inTok` records whether the scan is
currently inside a token that has already been counted. -/
def cntWords : Bool → List Char → Nat
  | _, [] => 0
  | inTok, c :: cs =>
    if isPySpace c then cntWords false cs
    else if inTok then cntWords true cs else 1 + cntWords true cs

/-! File system model: the upload directory, keyed by filename. A stored
file either yields its raw bytes on open/read, or raises an OS-level
I/O error. -/

/-- Outcome of opening and reading a stored file. -/
inductive FileEntry where
  | ok (bytes : List Nat)
  | ioError
deriving DecidableEq

/-- The upload directory: an association of filenames to file entries;
the first binding for a name is the current one. -/
abbrev FS := List (String × FileEntry)

/-- Look up a filename in the upload directory. -/
def fsLookup (fs : FS) (name : String) : Option FileEntry :=
  (fs.find? (fun p => p.1 = name)).map (fun p => p.2)

/-- `file.save(destination)`: (over)write the named file. -/
def fsSave (fs : FS) (name : String) (bytes : List Nat) : FS :=
  (name, FileEntry.ok bytes) :: fs

/-- Whether a byte is a UTF-8 continuation byte. -/
def isCont (b : Nat) : Bool :=
  0x80 ≤ b && b ≤ 0xBF

/-- UTF-8 decoding in the mode Python calls `errors="ignore"`: a total
function on byte lists; bytes that do not form a valid sequence are
dropped rather than raising an error. -/
def utf8DecodeIgnore : List Nat → List Char
  | [] => []
  | b :: bs =>
    if b < 0x80 then
      Char.ofNat b :: utf8DecodeIgnore bs
    else if 0xC2 ≤ b && b ≤ 0xDF then
      match bs with
      | b2 :: bs2 =>
        if isCont b2 then
          Char.ofNat ((b - 0xC0) * 0x40 + (b2 - 0x80)) :: utf8DecodeIgnore bs2
        else utf8DecodeIgnore (b2 :: bs2)
      | [] => []
    else if 0xE0 ≤ b && b ≤ 0xEF then
      match bs with
      | b2 :: b3 :: bs3 =>
        if isCont b2 && isCont b3 then
          Char.ofNat ((b - 0xE0) * 0x1000 + (b2 - 0x80) * 0x40 + (b3 - 0x80)) ::
            utf8DecodeIgnore bs3
        else utf8DecodeIgnore (b2 :: b3 :: bs3)
      | [b2] => utf8DecodeIgnore [b2]
      | [] => []
    else if 0xF0 ≤ b && b ≤ 0xF4 then
      match bs with
      | b2 :: b3 :: b4 :: bs4 =>
        if isCont b2 && isCont b3 && isCont b4 then
          Char.ofNat ((b - 0xF0) * 0x40000 + (b2 - 0x80) * 0x1000 +
            (b3 - 0x80) * 0x40 + (b4 - 0x80)) :: utf8DecodeIgnore bs4
        else utf8DecodeIgnore (b2 :: b3 :: b4 :: bs4)
      | [b2, b3] => utf8DecodeIgnore [b2, b3]
      | [b2] => utf8DecodeIgnore [b2]
      | [] => []
    else utf8DecodeIgnore bs
termination_by l => l.length
decreasing_by all_goals (simp only [List.length_cons]; omega)

/-- `get_word_count` from `app.py`: `None` when the path is falsy or the
file does not exist; the contents are read with `errors="ignore"` so
decoding never fails; an `OSError` while opening/reading yields `None`. -/
def get_word_count (fs : FS) (file_path : Option String) : Option Nat :=
  match file_path with
  | none => none
  | some p =>
    if p = "" then none
    else
      match fsLookup fs p with
      | none => none
      | some FileEntry.ioError => none
      | some (FileEntry.ok bytes) =>
        some (count_words (String.mk (utf8DecodeIgnore bytes)))

/-! The credential store: the `users` table. -/

/-- One row of the `users` table. -/
structure UserRow where
  id : Nat
  username : String
  password : String
  firstname : Option String := none
  lastname : Option String := none
  email : Option String := none
  address : Option String := none
  limerick_filename : Option String := none
deriving DecidableEq

/-- The `users` table, in insertion order. -/
abbrev DB := List UserRow

/-- `get_user` from `app.py`: `SELECT * FROM users WHERE username = ?`. -/
def get_user (db : DB) (username : String) : Option UserRow :=
  db.find? (fun r => r.username = username)

/-- The autoincrement id for the next insert. -/
def nextId (db : DB) : Nat :=
  (db.map (fun r => r.id)).foldr max 0 + 1

/-- `INSERT INTO users (username, password) VALUES (?, ?)`: `none` models
the `sqlite3.IntegrityError` raised by the `UNIQUE` constraint. -/
def insertUser (db : DB) (username hashed : String) : Option DB :=
  if db.any (fun r => r.username = username) then none
  else some (db ++ [{ id := nextId db, username := username, password := hashed }])

/-- `update_user_file` from `app.py`:
`UPDATE users SET limerick_filename = ? WHERE username = ?`. -/
def update_user_file (db : DB) (username filename : String) : DB :=
  db.map (fun r =>
    if r.username = username then { r with limerick_filename := some filename } else r)

/-! Pure helpers for uploads and passwords. -/

/-- Python string truthiness for a nullable column. -/
def pyTruthy : Option String → Bool
  | none => false
  | some s => s != ""

/-- `ALLOWED_EXTENSIONS` from `app.py`. -/
def ALLOWED_EXTENSIONS : List String := ["txt"]

/-- `filename.rsplit(".", 1)[1]`: the substring after the last dot. -/
def extAfterLastDot (filename : String) : String :=
  String.mk ((filename.toList.reverse.takeWhile (fun c => c ≠ '.')).reverse)

/-- Python `str.lower()` (ASCII case folding). -/
def strToLower (s : String) : String :=
  String.mk (s.toList.map Char.toLower)

/-- `allowed_file` from `app.py`:
`"." in filename and filename.rsplit(".", 1)[1].lower() in ALLOWED_EXTENSIONS`. -/
def allowed_file (filename : String) : Bool :=
  filename.toList.contains '.' &&
    ALLOWED_EXTENSIONS.contains (strToLower (extAfterLastDot filename))

/-- Python `str.startswith`. -/
def strStartsWith (s pre : String) : Bool :=
  pre.toList.isPrefixOf s.toList

/-- The login handler's test
`stored_password.startswith("pbkdf2:") or stored_password.startswith("scrypt:")`. -/
def storedIsHashed (stored : String) : Bool :=
  strStartsWith stored "pbkdf2:" || strStartsWith stored "scrypt:"

/-- The login handler's credential decision (`app.py` lines 198-205):
hash verification when the stored value carries a recognised algorithm
tag, plain string equality otherwise. `check` is the opaque
`check_password_hash` primitive. -/
def verifyPassword (check : String → String → Bool) (stored candidate : String) : Bool :=
  if storedIsHashed stored then check stored candidate else stored == candidate

/-! Route handlers. Each handler is a function from the request and the
ambient state (table, upload directory, session) to a result carrying
the updated state, the flashed messages of this request, and the HTTP
response. -/

/-- The response produced by a handler. -/
inductive Response where
  | render (template : String)
  | renderProfile (wordCount : Option Nat) (hasFile : Bool) (completeness : Nat)
  | redirect (url : String)
  | sendAttachment (filename : String)
  | notFound
deriving DecidableEq

/-- The outcome of one request. -/
structure HandlerResult where
  db : DB
  fs : FS
  sess : Option String
  flashes : List (String × String)
  response : Response
deriving DecidableEq

/-- HTTP method of a request. -/
inductive Method where
  | get
  | post
deriving DecidableEq

/-- The file part of a multipart POST. -/
structure UploadedFile where
  filename : String
  content : List Nat
deriving DecidableEq

def urlForRegister : String := "/"

def urlForDetails : String := "/details"

def urlForLogin : String := "/login"

def urlForProfile (username : String) : String := "/profile/" ++ username

/-- `require_login` from `app.py`: the session binding, treating the empty
string as absent (Python truthiness). -/
def requireLogin (sess : Option String) : Option String :=
  match sess with
  | none => none
  | some u => if u = "" then none else some u

/-- The canonical stored filename `"<username>_Limerick.txt"`. -/
def storedName (username : String) : String :=
  username ++ "_Limerick.txt"

/-- The `POST` branch of the `register` handler. `genHash` is the opaque
`generate_password_hash` primitive. -/
def registerPost (genHash : String → String) (db : DB) (fs : FS) (sess : Option String)
    (formUsername formPassword : String) : HandlerResult :=
  if pyStrip formUsername = "" ∨ pyStrip formPassword = "" then
    { db := db, fs := fs, sess := sess,
      flashes := [("Username and password are required.", "error")],
      response := Response.render "register.html" }
  else
    match insertUser db (pyStrip formUsername) (genHash (pyStrip formPassword)) with
    | none =>
      { db := db, fs := fs, sess := sess,
        flashes := [("That username is already taken. Try another.", "error")],
        response := Response.render "register.html" }
    | some db2 =>
      { db := db2, fs := fs, sess := some (pyStrip formUsername),
        flashes := [("Account created. Add your details below.", "success")],
        response := Response.redirect urlForDetails }

/-- The `POST` branch of the `login` handler. `check` is the opaque
`check_password_hash` primitive. (`user["password"] or ""` is the
identity on the stored string.) -/
def loginPost (check : String → String → Bool) (db : DB) (fs : FS) (sess : Option String)
    (formUsername formPassword : String) : HandlerResult :=
  if pyStrip formUsername = "" ∨ pyStrip formPassword = "" then
    { db := db, fs := fs, sess := sess,
      flashes := [("Both fields are required.", "error")],
      response := Response.render "login.html" }
  else
    match get_user db (pyStrip formUsername) with
    | none =>
      { db := db, fs := fs, sess := sess,
        flashes := [("Invalid username or password.", "error")],
        response := Response.render "login.html" }
    | some user =>
      if verifyPassword check user.password (pyStrip formPassword) then
        { db := db, fs := fs, sess := some (pyStrip formUsername),
          flashes := [("Welcome back!", "success")],
          response := Response.redirect (urlForProfile (pyStrip formUsername)) }
      else
        { db := db, fs := fs, sess := sess,
          flashes := [("Invalid username or password.", "error")],
          response := Response.render "login.html" }

/-- The count of the four optional profile fields that are non-empty after
trimming: `sum(1 for key in (...) if (user[key] or "").strip())`. -/
def filledFields (user : UserRow) : Nat :=
  (([user.firstname, user.lastname, user.email, user.address]).filter
    (fun f => pyStrip (f.getD "") ≠ "")).length

/-- `int((filled_fields / 4) * 100)`: for the integers that arise here the
float arithmetic is exact, so this is natural-number division. -/
def completenessOf (user : UserRow) : Nat :=
  filledFields user * 100 / 4

/-- The word count displayed on a profile `GET`: computed only when the
row's `limerick_filename` column is truthy. -/
def profileWordCount (fs : FS) (user : UserRow) : Option Nat :=
  if pyTruthy user.limerick_filename then
    get_word_count fs (some (user.limerick_filename.getD ""))
  else none

/-- The `profile` handler (`/profile/<username>`, `GET` and `POST`).
`secureFilename` is the opaque werkzeug `secure_filename` sanitizer. -/
def profileHandler (secureFilename : String → String) (db : DB) (fs : FS)
    (sess : Option String) (target : String) (method : Method)
    (files : Option UploadedFile) : HandlerResult :=
  match requireLogin sess with
  | none =>
    { db := db, fs := fs, sess := sess,
      flashes := [("Please log in to continue.", "error")],
      response := Response.redirect urlForLogin }
  | some current_user =>
    if current_user ≠ target then
      { db := db, fs := fs, sess := sess,
        flashes := [("You can only access your own profile.", "error")],
        response := Response.redirect (urlForProfile current_user) }
    else
      match get_user db target with
      | none =>
        { db := db, fs := fs, sess := sess,
          flashes := [("Profile not found.", "error")],
          response := Response.redirect urlForRegister }
      | some user =>
        match method with
        | Method.post =>
          match files with
          | none =>
            { db := db, fs := fs, sess := sess,
              flashes := [("Please choose a file to upload.", "error")],
              response := Response.redirect (urlForProfile target) }
          | some file =>
            if file.filename = "" then
              { db := db, fs := fs, sess := sess,
                flashes := [("No file selected.", "error")],
                response := Response.redirect (urlForProfile target) }
            else if !allowed_file file.filename then
              { db := db, fs := fs, sess := sess,
                flashes := [("Only .txt files are allowed.", "error")],
                response := Response.redirect (urlForProfile target) }
            else
              { db := update_user_file db target (storedName target),
                fs := fsSave fs (storedName target) file.content,
                sess := sess,
                flashes :=
                  (if strToLower (secureFilename file.filename) ≠ "limerick.txt" then
                    [("Uploaded file accepted. For grading, Limerick.txt is recommended.",
                      "info")]
                  else []) ++
                  [match get_word_count (fsSave fs (storedName target) file.content)
                      (some (storedName target)) with
                   | none => ("File uploaded, but word count could not be read.", "error")
                   | some n => ("File uploaded. Word count: " ++ toString n, "success")],
                response := Response.redirect (urlForProfile target) }
        | Method.get =>
          { db := db, fs := fs, sess := sess,
            flashes := [],
            response := Response.renderProfile (profileWordCount fs user)
              (pyTruthy user.limerick_filename) (completenessOf user) }

/-- The `download` handler (`/download/<username>`, `GET`). -/
def downloadGet (db : DB) (fs : FS) (sess : Option String) (target : String) :
    HandlerResult :=
  match requireLogin sess with
  | none =>
    { db := db, fs := fs, sess := sess,
      flashes := [("Please log in to continue.", "error")],
      response := Response.redirect urlForLogin }
  | some current_user =>
    if current_user ≠ target then
      { db := db, fs := fs, sess := sess,
        flashes := [("You can only download your own file.", "error")],
        response := Response.redirect (urlForProfile current_user) }
    else
      match get_user db target with
      | none =>
        { db := db, fs := fs, sess := sess,
          flashes := [("No file available to download.", "error")],
          response := Response.redirect (urlForProfile target) }
      | some user =>
        if pyTruthy user.limerick_filename then
          { db := db, fs := fs, sess := sess,
            flashes := [],
            response := Response.sendAttachment (user.limerick_filename.getD "") }
        else
          { db := db, fs := fs, sess := sess,
            flashes := [("No file available to download.", "error")],
            response := Response.redirect (urlForProfile target) }

/-! Concrete sample data used to instantiate the theorems. -/

/-- A concrete stand-in for the opaque `check_password_hash` primitive. -/
def toyCheck (stored candidate : String) : Bool :=
  stored == "pbkdf2:" ++ candidate

/-- A concrete stand-in for the opaque `generate_password_hash` primitive. -/
def toyHash (plaintext : String) : String :=
  "pbkdf2:" ++ plaintext

/-- A concrete stand-in for the opaque `secure_filename` sanitizer (the
identity, which is what `secure_filename` does on already-safe names). -/
def toySanitize (filename : String) : String :=
  filename

def aliceRow : UserRow :=
  { id := 1, username := "alice", password := "pbkdf2:hunter2" }

def sampleDb : DB := [aliceRow]

def sampleFs : FS :=
  [("alice_Limerick.txt", FileEntry.ok [0x68, 0x69, 0xFF])]

def notesDoc : UploadedFile := { filename := "notes.doc", content := [0x6e] }

def limerickTXT : UploadedFile := { filename := "Limerick.TXT", content := [0x68, 0x69] }

def poemTxt : UploadedFile := { filename := "poem.txt", content := [0x68, 0x69] }

def noDotFile : UploadedFile := { filename := "Limerick", content := [0x68] }

/-- A user with only `email` set. -/
def onlyEmailUser : UserRow :=
  { id := 3, username := "carol", password := "pbkdf2:x", email := some "carol@example.com" }

/-- A user whose four optional fields are all whitespace-only strings. -/
def whitespaceUser : UserRow :=
  { id := 4, username := "dave", password := "pbkdf2:y",
    firstname := some " ", lastname := some " ", email := some " ", address := some " " }

/-! Helper lemmas and claim theorems. -/

theorem pySplitAux_cons_space {c : Char} (h : isPySpace c = true) (cs : List Char) :
    pySplitAux (c :: cs) [] = pySplitAux cs [] := by
  simp [pySplitAux, h]

theorem pySplitAux_cons_space_acc {c : Char} (h : isPySpace c = true) (cs : List Char)
    (a : Char) (as : List Char) :
    pySplitAux (c :: cs) (a :: as) =
      String.mk ((a :: as).reverse) :: pySplitAux cs [] := by
  simp [pySplitAux, h]

theorem pySplitAux_cons_nonspace {c : Char} (h : isPySpace c = false) (cs acc : List Char) :
    pySplitAux (c :: cs) acc = pySplitAux cs (c :: acc) := by
  simp [pySplitAux, h]

theorem specSplit_ne_nil (l : List Char) : specSplit l ≠ [] := by
  cases l with
  | nil => simp [specSplit]
  | cons c cs =>
    simp only [specSplit]
    by_cases h : isPySpace c
    · simp [h]
    · simp only [h, if_neg, Bool.false_eq_true, not_false_iff]
      cases hs : specSplit cs with
      | nil => simp
      | cons t ts => simp

theorem specSplit_cons_space {c : Char} (h : isPySpace c = true) (cs : List Char) :
    specSplit (c :: cs) = [] :: specSplit cs := by
  simp [specSplit, h]

theorem specSplit_cons_nonspace {c : Char} (h : isPySpace c = false) {cs : List Char}
    {t : List Char} {ts : List (List Char)} (hs : specSplit cs = t :: ts) :
    specSplit (c :: cs) = (c :: t) :: ts := by
  simp [specSplit, h, hs]

/-- The number of tokens produced by `pySplitAux` agrees with the
word-counting automaton, both from outside a token (empty accumulator)
and from inside one (non-empty accumulator). -/
theorem pySplitAux_length (l : List Char) :
    (pySplitAux l []).length = cntWords false l ∧
      ∀ a acc, (pySplitAux l (a :: acc)).length = 1 + cntWords true l := by
  induction l with
  | nil => exact ⟨rfl, fun a acc => rfl⟩
  | cons c cs ih =>
    by_cases hc : isPySpace c
    · refine ⟨?_, fun a acc => ?_⟩
      · rw [pySplitAux_cons_space hc, ih.1]
        simp [cntWords, hc]
      · rw [pySplitAux_cons_space_acc hc]
        simp only [List.length_cons, cntWords, hc, if_pos]
        rw [ih.1]
        omega
    · have hc' : isPySpace c = false := by simpa using hc
      refine ⟨?_, fun a acc => ?_⟩
      · rw [pySplitAux_cons_nonspace hc', ih.2 c []]
        simp [cntWords, hc']
      · rw [pySplitAux_cons_nonspace hc', ih.2 c (a :: acc)]
        simp [cntWords, hc']

/-- The non-empty-field count of the spec-side split agrees with the same
automaton. -/
theorem specSplit_count (l : List Char) :
    ((specSplit l).filter (fun t => t ≠ [])).length = cntWords false l ∧
      ((specSplit l).tail.filter (fun t => t ≠ [])).length = cntWords true l := by
  induction l with
  | nil => exact ⟨rfl, rfl⟩
  | cons c cs ih =>
    by_cases hc : isPySpace c
    · rw [specSplit_cons_space hc]
      constructor
      · simpa [cntWords, hc] using ih.1
      · simpa [cntWords, hc] using ih.1
    · have hc' : isPySpace c = false := by simpa using hc
      obtain ⟨t, ts, hs⟩ : ∃ t ts, specSplit cs = t :: ts := by
        cases h : specSplit cs with
        | nil => exact absurd h (specSplit_ne_nil cs)
        | cons t ts => exact ⟨t, ts, rfl⟩
      rw [specSplit_cons_nonspace hc' hs]
      have htail : ((specSplit cs).tail.filter (fun t => t ≠ [])).length =
          cntWords true cs := ih.2
      rw [hs] at htail
      simp only [List.tail_cons] at htail
      constructor
      · have hcons : (((c :: t) :: ts).filter (fun x => x ≠ [])).length
            = (ts.filter (fun x => x ≠ [])).length + 1 := by
          simp
        rw [hcons, htail]
        have hcnt : cntWords false (c :: cs) = 1 + cntWords true cs := by
          simp [cntWords, hc']
        rw [hcnt]
        omega
      · simpa [cntWords, hc'] using htail

theorem dropWhile_eq_self_of_all {p : Char → Bool} (l : List Char)
    (h : ∀ c ∈ l, p c = false) : l.dropWhile p = l := by
  cases l with
  | nil => rfl
  | cons c cs =>
    rw [List.dropWhile_cons]
    simp [h c (List.mem_cons_self c cs)]

/-- Every token produced by `pySplitAux` (with a whitespace-free
accumulator) is non-empty and free of whitespace characters. -/
theorem mem_pySplitAux (l : List Char) :
    ∀ acc t, (∀ c ∈ acc, isPySpace c = false) → t ∈ pySplitAux l acc →
      t.data ≠ [] ∧ ∀ c ∈ t.data, isPySpace c = false := by
  induction l with
  | nil =>
    intro acc t hacc ht
    cases acc with
    | nil => simp [pySplitAux] at ht
    | cons a as =>
      simp only [pySplitAux, List.mem_singleton] at ht
      subst ht
      refine ⟨by simp, ?_⟩
      intro c hc
      simp only [String.data] at hc
      rw [List.mem_reverse] at hc
      exact hacc c hc
  | cons c cs ih =>
    intro acc t hacc ht
    by_cases hc : isPySpace c
    · cases acc with
      | nil =>
        rw [pySplitAux_cons_space hc] at ht
        exact ih [] t (by simp) ht
      | cons a as =>
        rw [pySplitAux_cons_space_acc hc] at ht
        rcases List.mem_cons.mp ht with h | h
        · subst h
          refine ⟨by simp, ?_⟩
          intro x hx
          simp only [String.data] at hx
          rw [List.mem_reverse] at hx
          exact hacc x hx
        · exact ih [] t (by simp) h
    · have hc' : isPySpace c = false := by simpa using hc
      rw [pySplitAux_cons_nonspace hc'] at ht
      refine ih (c :: acc) t ?_ ht
      intro x hx
      rcases List.mem_cons.mp hx with h | h
      · subst h; exact hc'
      · exact hacc x h

theorem pyStrip_of_spacefree (t : String) (h : ∀ c ∈ t.data, isPySpace c = false) :
    pyStrip t = t := by
  cases t with
  | mk data =>
    simp only [pyStrip, String.toList]
    rw [dropWhile_eq_self_of_all data h]
    rw [dropWhile_eq_self_of_all data.reverse (by intro c hc; exact h c (List.mem_reverse.mp hc))]
    rw [List.reverse_reverse]

/-- The filter in `count_words` keeps every token of `text.split()`:
`count_words text` is just the number of split tokens. -/
theorem count_words_eq_length_pySplit (s : String) :
    count_words s = (pySplit s).length := by
  unfold count_words
  congr 1
  rw [List.filter_eq_self]
  intro t ht
  have h := mem_pySplitAux s.toList [] t (by simp) ht
  have hstrip := pyStrip_of_spacefree t h.2
  simp only [ne_eq, decide_eq_true_eq, hstrip]
  intro heq
  apply h.1
  rw [heq]

/-! Claim theorems for the word counter. -/

/-- C4: for every string `s`, `count_words s` equals the number of
non-empty tokens obtained by splitting `s` on maximal runs of whitespace;
in particular `count_words "" = 0`, `count_words "a b  c" = 3` and
`count_words "   " = 0`. -/
theorem C4_count_words_spec :
    (∀ s : String, count_words s = specTokenCount s) ∧
      count_words "" = 0 ∧ count_words "a b  c" = 3 ∧ count_words "   " = 0 := by
  refine ⟨fun s => ?_, by decide, by decide, by decide⟩
  rw [count_words_eq_length_pySplit, pySplit, (pySplitAux_length s.toList).1,
    specTokenCount, (specSplit_count s.toList).1]

/-! Helper lemmas about the store and the upload directory. -/

theorem fsLookup_fsSave (fs : FS) (name : String) (bytes : List Nat) :
    fsLookup (fsSave fs name bytes) name = some (FileEntry.ok bytes) := by
  unfold fsLookup fsSave
  rw [List.find?_cons_of_pos]
  · rfl
  · simp

theorem get_user_update_user_file (db : DB) (u n : String) :
    get_user (update_user_file db u n) u =
      (get_user db u).map (fun r => { r with limerick_filename := some n }) := by
  induction db with
  | nil => rfl
  | cons r rs ih =>
    unfold update_user_file get_user at ih ⊢
    rw [List.map_cons]
    by_cases h : r.username = u
    · rw [if_pos h, List.find?_cons_of_pos, List.find?_cons_of_pos]
      · rfl
      · simp [h]
      · simp [h]
    · rw [if_neg h, List.find?_cons_of_neg, List.find?_cons_of_neg]
      · exact ih
      · simp [h]
      · simp [h]

/-- Claim C1: for every login POST with non-empty username and password, if
the username has no row in the store or the password fails verification
against the stored row, the handler produces the identical outcome in
both cases: the generic "Invalid username or password." message is
flashed, the login form is redisplayed, and the session binding is left
exactly as it was — the two failure causes are indistinguishable. -/
theorem C1_login_failure_indistinguishable
    (check : String → String → Bool) (db : DB) (fs : FS) (sess : Option String)
    (formUsername formPassword : String)
    (hu : pyStrip formUsername ≠ "") (hp : pyStrip formPassword ≠ "")
    (hfail : get_user db (pyStrip formUsername) = none ∨
      ∃ row, get_user db (pyStrip formUsername) = some row ∧
        verifyPassword check row.password (pyStrip formPassword) = false) :
    loginPost check db fs sess formUsername formPassword =
      { db := db, fs := fs, sess := sess,
        flashes := [("Invalid username or password.", "error")],
        response := Response.render "login.html" } := by
  unfold loginPost
  rw [if_neg (by push_neg; exact ⟨hu, hp⟩)]
  rcases hfail with h | ⟨row, hrow, hv⟩
  · rw [h]
  · rw [hrow]
    simp [hv]

theorem C1_witness :
    loginPost toyCheck sampleDb [] (some "guest") "bob" "secret" =
      { db := sampleDb, fs := [], sess := some "guest",
        flashes := [("Invalid username or password.", "error")],
        response := Response.render "login.html" } :=
  C1_login_failure_indistinguishable toyCheck sampleDb [] (some "guest") "bob" "secret"
    (by decide) (by decide) (Or.inl (by decide))

/-- Claim C2: a register POST (with non-empty fields) whose username
already has a row in the table fails on the uniqueness constraint: the
duplicate-username message is flashed, the register form is
redisplayed, the session is left untouched, and the table — hence the
pre-existing user's row, with its id, password hash and every other
field — is unchanged. -/
theorem C2_duplicate_register
    (genHash : String → String) (db : DB) (fs : FS) (sess : Option String)
    (formUsername formPassword : String) (row : UserRow)
    (hu : pyStrip formUsername ≠ "") (hp : pyStrip formPassword ≠ "")
    (hmem : row ∈ db) (hname : row.username = pyStrip formUsername) :
    registerPost genHash db fs sess formUsername formPassword =
      { db := db, fs := fs, sess := sess,
        flashes := [("That username is already taken. Try another.", "error")],
        response := Response.render "register.html" } := by
  unfold registerPost
  rw [if_neg (by push_neg; exact ⟨hu, hp⟩)]
  have hany : db.any (fun r => r.username = pyStrip formUsername) = true := by
    rw [List.any_eq_true]
    exact ⟨row, hmem, by simp [hname]⟩
  have hins : insertUser db (pyStrip formUsername) (genHash (pyStrip formPassword)) = none := by
    unfold insertUser
    rw [hany]
    rfl
  rw [hins]

theorem C2_witness :
    registerPost toyHash sampleDb [] none "alice" "newpassword" =
      { db := sampleDb, fs := [], sess := none,
        flashes := [("That username is already taken. Try another.", "error")],
        response := Response.render "register.html" } :=
  C2_duplicate_register toyHash sampleDb [] none "alice" "newpassword" aliceRow
    (by decide) (by decide) (by decide) (by decide)

/-- Claim C3: a request to the profile or download route while the session
holds a different (non-empty) user redirects to the caller's own
profile with an error notice and does not 404. The statement holds for
every table, every upload directory, every method and every file part,
so the outcome is computed without reading the other user's row or
stored file. -/
theorem C3_owner_mismatch
    (secureFilename : String → String) (db : DB) (fs : FS)
    (current target : String) (method : Method) (files : Option UploadedFile)
    (hcur : current ≠ "") (hne : current ≠ target) :
    profileHandler secureFilename db fs (some current) target method files =
      { db := db, fs := fs, sess := some current,
        flashes := [("You can only access your own profile.", "error")],
        response := Response.redirect (urlForProfile current) } ∧
    downloadGet db fs (some current) target =
      { db := db, fs := fs, sess := some current,
        flashes := [("You can only download your own file.", "error")],
        response := Response.redirect (urlForProfile current) } := by
  constructor
  · simp [profileHandler, requireLogin, hcur, hne]
  · simp [downloadGet, requireLogin, hcur, hne]

theorem C3_witness :
    profileHandler toySanitize sampleDb sampleFs (some "bob") "alice" Method.get none =
      { db := sampleDb, fs := sampleFs, sess := some "bob",
        flashes := [("You can only access your own profile.", "error")],
        response := Response.redirect (urlForProfile "bob") } ∧
    downloadGet sampleDb sampleFs (some "bob") "alice" =
      { db := sampleDb, fs := sampleFs, sess := some "bob",
        flashes := [("You can only download your own file.", "error")],
        response := Response.redirect (urlForProfile "bob") } :=
  C3_owner_mismatch toySanitize sampleDb sampleFs "bob" "alice" Method.get none
    (by decide) (by decide)

/-- Claim C8: if the stored password value begins with a recognised
algorithm tag ("pbkdf2:" or "scrypt:"), the login validity decision is
the one-way hash verification of the candidate; otherwise it is exact
string equality between the stored value and the candidate (the legacy
plaintext fallback). -/
theorem C8_verify_dispatch (check : String → String → Bool) (stored candidate : String) :
    ((strStartsWith stored "pbkdf2:" = true ∨ strStartsWith stored "scrypt:" = true) →
      verifyPassword check stored candidate = check stored candidate) ∧
    (strStartsWith stored "pbkdf2:" = false → strStartsWith stored "scrypt:" = false →
      (verifyPassword check stored candidate = true ↔ stored = candidate)) := by
  constructor
  · intro h
    unfold verifyPassword storedIsHashed
    rcases h with h | h <;> simp [h]
  · intro h1 h2
    unfold verifyPassword storedIsHashed
    simp [h1, h2]

theorem C8_witness :
    verifyPassword toyCheck "pbkdf2:hunter2" "hunter2" =
      toyCheck "pbkdf2:hunter2" "hunter2" ∧
    (verifyPassword toyCheck "legacyplain" "legacyplain" = true ↔
      "legacyplain" = "legacyplain") :=
  ⟨(C8_verify_dispatch toyCheck "pbkdf2:hunter2" "hunter2").1 (Or.inl (by decide)),
   (C8_verify_dispatch toyCheck "legacyplain" "legacyplain").2 (by decide) (by decide)⟩

/-- Claim C10: for every path that exists and can be opened,
`get_word_count` returns a count, whatever the file's bytes are —
decoding with `errors="ignore"` is total, so undecodable bytes are
dropped rather than raising; `none` is returned exactly when the path
is `None`/empty, the file does not exist, or opening/reading raises an
OS-level I/O error. -/
theorem C10_get_word_count_total (fs : FS) (p : String) :
    (∀ bytes, p ≠ "" → fsLookup fs p = some (FileEntry.ok bytes) →
      get_word_count fs (some p) =
        some (count_words (String.mk (utf8DecodeIgnore bytes)))) ∧
    (get_word_count fs (some p) = none ↔
      p = "" ∨ fsLookup fs p = none ∨ fsLookup fs p = some FileEntry.ioError) ∧
    get_word_count fs none = none := by
  refine ⟨?_, ?_, rfl⟩
  · intro bytes hp hlk
    simp [get_word_count, hp, hlk]
  · by_cases hp : p = ""
    · simp [get_word_count, hp]
    · cases hlk : fsLookup fs p with
      | none => simp [get_word_count, hp, hlk]
      | some e => cases e <;> simp [get_word_count, hp, hlk]

theorem C10_witness :
    get_word_count sampleFs (some "alice_Limerick.txt") =
      some (count_words (String.mk (utf8DecodeIgnore [0x68, 0x69, 0xFF]))) :=
  (C10_get_word_count_total sampleFs "alice_Limerick.txt").1 [0x68, 0x69, 0xFF]
    (by decide) (by decide)

theorem allowed_file_false_of_ext (filename : String)
    (hext : strToLower (extAfterLastDot filename) ≠ "txt") :
    allowed_file filename = false := by
  simp only [allowed_file, ALLOWED_EXTENSIONS]
  simp
  intro _
  exact hext

theorem allowed_file_false_of_nodot (filename : String)
    (hnodot : filename.toList.contains '.' = false) :
    allowed_file filename = false := by
  have hd : '.' ∉ filename.toList := by simpa using hnodot
  simp [allowed_file]
  intro hmem
  exact absurd hmem hd

theorem allowed_file_true_of_ext (filename : String)
    (hdot : filename.toList.contains '.' = true)
    (hext : strToLower (extAfterLastDot filename) = "txt") :
    allowed_file filename = true := by
  have hd : '.' ∈ filename.toList := by simpa using hdot
  simp [allowed_file, ALLOWED_EXTENSIONS, hext]
  exact hd

/-- The accepted-upload branch of the profile POST handler, written out
once: past the three validation checks the handler saves the canonical
file, updates the row, flashes the optional advisory notice and the
word-count message, and redirects. -/
theorem profile_post_accept
    (secureFilename : String → String) (db : DB) (fs : FS) (u : String)
    (row : UserRow) (f : UploadedFile)
    (hu : u ≠ "") (hrow : get_user db u = some row)
    (hfn : f.filename ≠ "") (hallow : allowed_file f.filename = true) :
    profileHandler secureFilename db fs (some u) u Method.post (some f) =
      { db := update_user_file db u (storedName u),
        fs := fsSave fs (storedName u) f.content,
        sess := some u,
        flashes :=
          (if strToLower (secureFilename f.filename) ≠ "limerick.txt" then
            [("Uploaded file accepted. For grading, Limerick.txt is recommended.", "info")]
          else []) ++
          [match get_word_count (fsSave fs (storedName u) f.content) (some (storedName u)) with
           | none => ("File uploaded, but word count could not be read.", "error")
           | some n => ("File uploaded. Word count: " ++ toString n, "success")],
        response := Response.redirect (urlForProfile u) } := by
  simp [profileHandler, requireLogin, hu, hrow, hfn, hallow]

/-- Claim C5: on an owner's upload POST, validation is applied in order —
missing file part first, then empty filename, then a disallowed
extension (the substring after the last dot, case-insensitively, must
be "txt") — the first failure is terminal and leaves the state
untouched, and a filename with extension "txt" in any case passes
validation and is stored. -/
theorem C5_upload_validation_order
    (secureFilename : String → String) (db : DB) (fs : FS) (u : String)
    (row : UserRow) (f : UploadedFile)
    (hu : u ≠ "") (hrow : get_user db u = some row) :
    (profileHandler secureFilename db fs (some u) u Method.post none =
      { db := db, fs := fs, sess := some u,
        flashes := [("Please choose a file to upload.", "error")],
        response := Response.redirect (urlForProfile u) }) ∧
    (f.filename = "" →
      profileHandler secureFilename db fs (some u) u Method.post (some f) =
        { db := db, fs := fs, sess := some u,
          flashes := [("No file selected.", "error")],
          response := Response.redirect (urlForProfile u) }) ∧
    (f.filename ≠ "" → strToLower (extAfterLastDot f.filename) ≠ "txt" →
      profileHandler secureFilename db fs (some u) u Method.post (some f) =
        { db := db, fs := fs, sess := some u,
          flashes := [("Only .txt files are allowed.", "error")],
          response := Response.redirect (urlForProfile u) }) ∧
    (f.filename ≠ "" → f.filename.toList.contains '.' = true →
      strToLower (extAfterLastDot f.filename) = "txt" →
      fsLookup (profileHandler secureFilename db fs (some u) u Method.post (some f)).fs
          (storedName u) = some (FileEntry.ok f.content) ∧
      (profileHandler secureFilename db fs (some u) u Method.post (some f)).response =
        Response.redirect (urlForProfile u)) := by
  refine ⟨?_, ?_, ?_, ?_⟩
  · simp [profileHandler, requireLogin, hu, hrow]
  · intro hempty
    simp [profileHandler, requireLogin, hu, hrow, hempty]
  · intro hfn hext
    have hallow := allowed_file_false_of_ext f.filename hext
    simp [profileHandler, requireLogin, hu, hrow, hfn, hallow]
  · intro hfn hdot hext
    have hallow := allowed_file_true_of_ext f.filename hdot hext
    rw [profile_post_accept secureFilename db fs u row f hu hrow hfn hallow]
    exact ⟨fsLookup_fsSave fs (storedName u) f.content, rfl⟩

theorem C5_witness :
    (profileHandler toySanitize sampleDb [] (some "alice") "alice" Method.post
        (some notesDoc) =
      { db := sampleDb, fs := [], sess := some "alice",
        flashes := [("Only .txt files are allowed.", "error")],
        response := Response.redirect (urlForProfile "alice") }) ∧
    fsLookup (profileHandler toySanitize sampleDb [] (some "alice") "alice" Method.post
        (some limerickTXT)).fs (storedName "alice") =
      some (FileEntry.ok limerickTXT.content) := by
  constructor
  · exact (C5_upload_validation_order toySanitize sampleDb [] "alice" aliceRow notesDoc
      (by decide) (by decide)).2.2.1 (by decide) (by decide)
  · exact ((C5_upload_validation_order toySanitize sampleDb [] "alice" aliceRow limerickTXT
      (by decide) (by decide)).2.2.2 (by decide) (by decide) (by decide)).1

/-- Claim C6: every accepted upload is stored under the canonical name
`username ++ "_Limerick.txt"`, overwriting any prior upload for that
user, and that name is recorded in the user's row; when the sanitized
original filename is not (case-insensitively) exactly "limerick.txt",
an informational notice is flashed but the file is still accepted and
stored. -/
theorem C6_canonical_storage
    (secureFilename : String → String) (db : DB) (fs : FS) (u : String)
    (row : UserRow) (f : UploadedFile)
    (hu : u ≠ "") (hrow : get_user db u = some row)
    (hfn : f.filename ≠ "") (hallow : allowed_file f.filename = true) :
    (profileHandler secureFilename db fs (some u) u Method.post (some f)).fs =
        fsSave fs (storedName u) f.content ∧
    fsLookup (profileHandler secureFilename db fs (some u) u Method.post (some f)).fs
        (storedName u) = some (FileEntry.ok f.content) ∧
    get_user (profileHandler secureFilename db fs (some u) u Method.post (some f)).db u =
        some { row with limerick_filename := some (storedName u) } ∧
    (profileHandler secureFilename db fs (some u) u Method.post (some f)).response =
        Response.redirect (urlForProfile u) ∧
    (strToLower (secureFilename f.filename) ≠ "limerick.txt" →
      ("Uploaded file accepted. For grading, Limerick.txt is recommended.", "info") ∈
        (profileHandler secureFilename db fs (some u) u Method.post (some f)).flashes) := by
  rw [profile_post_accept secureFilename db fs u row f hu hrow hfn hallow]
  refine ⟨rfl, fsLookup_fsSave fs (storedName u) f.content, ?_, rfl, ?_⟩
  · show get_user (update_user_file db u (storedName u)) u = _
    rw [get_user_update_user_file, hrow]
    rfl
  · intro hname
    simp [hname]

theorem C6_witness :
    fsLookup (profileHandler toySanitize sampleDb [] (some "alice") "alice" Method.post
        (some poemTxt)).fs (storedName "alice") = some (FileEntry.ok poemTxt.content) ∧
    get_user (profileHandler toySanitize sampleDb [] (some "alice") "alice" Method.post
        (some poemTxt)).db "alice" =
      some { aliceRow with limerick_filename := some (storedName "alice") } ∧
    ("Uploaded file accepted. For grading, Limerick.txt is recommended.", "info") ∈
      (profileHandler toySanitize sampleDb [] (some "alice") "alice" Method.post
        (some poemTxt)).flashes := by
  have h := C6_canonical_storage toySanitize sampleDb [] "alice" aliceRow poemTxt
    (by decide) (by decide) (by decide) (by decide)
  exact ⟨h.2.1, h.2.2.1, h.2.2.2.2 (by decide)⟩

/-- Claim C7: the completeness percentage shown on the profile GET is the
integer truncation of (number of the four optional fields that are
non-empty after trimming, divided by 4, times 100); a user with only
`email` set has completeness 25, and whitespace-only fields count as
empty. -/
theorem C7_profile_completeness
    (secureFilename : String → String) (db : DB) (fs : FS) (u : String) (row : UserRow)
    (hu : u ≠ "") (hrow : get_user db u = some row) :
    (profileHandler secureFilename db fs (some u) u Method.get none =
      { db := db, fs := fs, sess := some u, flashes := [],
        response := Response.renderProfile (profileWordCount fs row)
          (pyTruthy row.limerick_filename) (completenessOf row) }) ∧
    (completenessOf row : ℤ) = ⌊((filledFields row : ℚ) / 4) * 100⌋ ∧
    completenessOf onlyEmailUser = 25 ∧
    completenessOf whitespaceUser = 0 := by
  refine ⟨?_, ?_, by decide, by decide⟩
  · simp [profileHandler, requireLogin, hu, hrow]
  · have h25 : completenessOf row = 25 * filledFields row := by
      unfold completenessOf
      omega
    have hq : ((filledFields row : ℚ) / 4) * 100 = ((25 * filledFields row : ℕ) : ℚ) := by
      push_cast
      ring
    rw [h25, hq, Int.floor_natCast]

theorem C7_witness :
    (profileHandler toySanitize sampleDb sampleFs (some "alice") "alice" Method.get none =
      { db := sampleDb, fs := sampleFs, sess := some "alice", flashes := [],
        response := Response.renderProfile (profileWordCount sampleFs aliceRow)
          (pyTruthy aliceRow.limerick_filename) (completenessOf aliceRow) }) ∧
    completenessOf onlyEmailUser = 25 ∧ completenessOf whitespaceUser = 0 := by
  have h := C7_profile_completeness toySanitize sampleDb sampleFs "alice" aliceRow
    (by decide) (by decide)
  exact ⟨h.1, h.2.2.1, h.2.2.2⟩

/-- Claim C9 (implicit): a filename containing no dot at all fails
`allowed_file`, and an owner's upload of such a (non-empty) filename is
rejected with the disallowed-extension error. -/
theorem C9_no_dot_rejected
    (secureFilename : String → String) (db : DB) (fs : FS) (u : String)
    (row : UserRow) (f : UploadedFile)
    (hu : u ≠ "") (hrow : get_user db u = some row)
    (hfn : f.filename ≠ "") (hnodot : f.filename.toList.contains '.' = false) :
    allowed_file f.filename = false ∧
    profileHandler secureFilename db fs (some u) u Method.post (some f) =
      { db := db, fs := fs, sess := some u,
        flashes := [("Only .txt files are allowed.", "error")],
        response := Response.redirect (urlForProfile u) } := by
  have hallow := allowed_file_false_of_nodot f.filename hnodot
  exact ⟨hallow, by simp [profileHandler, requireLogin, hu, hrow, hfn, hallow]⟩

theorem C9_witness :
    allowed_file noDotFile.filename = false ∧
    profileHandler toySanitize sampleDb [] (some "alice") "alice" Method.post
        (some noDotFile) =
      { db := sampleDb, fs := [], sess := some "alice",
        flashes := [("Only .txt files are allowed.", "error")],
        response := Response.redirect (urlForProfile "alice") } :=
  C9_no_dot_rejected toySanitize sampleDb [] "alice" aliceRow noDotFile
    (by decide) (by decide) (by decide) (by decide)

end CloudProfile
